import Mathlib

/-!
Verification of the heightmap-to-mesh converter and scene composer of
scripts/tiny_pyviewer/tools.py.

Modelling conventions:
* a numpy 2D float array is a rectangular `List (List ℚ)` (row-major);
  Python floats are modelled by exact rationals, so the literal 0.05 is
  the rational 1/20;
* `hmap_to_trimesh` returns, next to its `Except` result, the final state
  of the caller's height grid `z` (the source mutates `z` in place when
  `add_skirt` is true);
* numpy calls that raise are modelled by `Except.error`: reductions
  (`min`/`max`) on an empty array and `np.vstack` on rows of different
  lengths raise `ValueError`;
* the module tools.py imports only numpy, pyrender and trimesh; the
  offscreen branch of `show` dereferences the unbound global names `os`
  (first statement of the branch) and `plt`, so entering that branch
  raises `NameError` on the name `os` before any rendering happens; this
  is modelled explicitly;
* the external collaborators are modelled by their data contract only:
  `trimesh.Trimesh(vertices, faces)` packages the vertex and face lists
  (its default vertex merging is the identity on the lattices built here,
  whose (x, y) pairs are pairwise distinct), `pyrender` scene and viewer
  objects carry no data the claims mention, and a mesh handed to `show`
  contributes only its `centroid` attribute and (unused) vertex count.
-/

abbrev Vec3 : Type := ℚ × ℚ × ℚ

abbrev Grid : Type := List (List ℚ)

/-- Errors of the Python runtime that the modelled code can raise. -/
inductive PyError : Type where
  | nameError (name : String)
  | valueError (msg : String)
deriving DecidableEq, Repr

/-- Mesh value as packaged by `trimesh.Trimesh(vertices=xyz, faces=faces)`:
a vertex list of 3D points and a face list of vertex-index triples. -/
structure Trimesh : Type where
  vertices : List Vec3
  faces : List (Nat × Nat × Nat)
deriving DecidableEq, Repr

/-- An optional coordinate argument of `hmap_to_trimesh`: either a 1D axis
vector or a full 2D grid, as numpy accepts both. -/
inductive NpArray : Type where
  | oneD (v : List ℚ)
  | twoD (m : Grid)
deriving DecidableEq, Repr

/-- Rectangularity: `z` has `nx` rows, each of length `ny` (the shape
invariant every 2D numpy array satisfies by construction). -/
def IsGrid (z : Grid) (nx ny : Nat) : Prop :=
  z.length = nx ∧ ∀ r ∈ z, r.length = ny

instance (z : Grid) (nx ny : Nat) : Decidable (IsGrid z nx ny) := by
  unfold IsGrid; infer_instance

/-- Entry `z[i][j]` of a grid, with numpy out-of-range reads irrelevant to
the claims defaulted to 0. -/
def gridGet (z : Grid) (i j : Nat) : ℚ :=
  (z.getD i []).getD j 0

/-- Model of `np.linspace(start, stop, num)`: `num` evenly spaced samples
from `start` to `stop`, both endpoints included. -/
def npLinspace (start stop : ℚ) (num : Nat) : List ℚ :=
  if num ≤ 1 then List.replicate num start
  else (List.range num).map (fun (k : Nat) => start + (stop - start) * (k : ℚ) / ((num : ℚ) - 1))

/-- Model of `ndarray.flatten()` / the implicit ravel inside `np.meshgrid`:
a 1D array is itself, a 2D array is flattened row-major. -/
def ravel : NpArray → List ℚ
  | NpArray.oneD v => v
  | NpArray.twoD m => m.flatten

/-- Model of `np.meshgrid(a, b, indexing='ij')`: both inputs are first
reshaped to 1D (numpy reshapes each argument with `reshape(-1)`), then
broadcast, giving `X[i][j] = ravel a [i]` and `Y[i][j] = ravel b [j]`. -/
def meshgrid_ij (a b : NpArray) : Grid × Grid :=
  let af := ravel a
  let bf := ravel b
  (af.map (fun v => bf.map (fun _ => v)), af.map (fun _ => bf))

/-- Skirt floor value `z.min() - 0.05 * z.ptp()` of the source, with the
float literal 0.05 modelled as the exact rational 1/20 and
`ptp = max - min`. -/
def skirtFloor (zmin zmax : ℚ) : ℚ :=
  zmin - (1 / 20) * (zmax - zmin)

/-- Model of the numpy row assignment `z[i, :] = c`. -/
def setRowConst (z : Grid) (i : Nat) (c : ℚ) : Grid :=
  z.set i ((z.getD i []).map (fun _ => c))

/-- Model of the numpy column assignment `z[:, j] = c`. -/
def setColConst (z : Grid) (j : Nat) (c : ℚ) : Grid :=
  z.map (fun r => r.set j c)

/-- The four border assignments of the skirt block, in source order:
`z[0,:] = z0; z[nx-1,:] = z0; z[:,0] = z0; z[:,ny-1] = z0`. -/
def skirtBorders (z : Grid) (nx ny : Nat) (z0 : ℚ) : Grid :=
  setColConst (setColConst (setRowConst (setRowConst z 0 z0) (nx - 1) z0) 0 z0) (ny - 1) z0

/-- The `if add_skirt:` block: compute the floor from the current data
(`z.min()` and `z.ptp()` raise ValueError on an empty array) and overwrite
the four borders. -/
def skirtStep (z : Grid) (nx ny : Nat) (add_skirt : Bool) : Except PyError Grid :=
  if add_skirt then
    match z.flatten.min?, z.flatten.max? with
    | some zmin, some zmax => Except.ok (skirtBorders z nx ny (skirtFloor zmin zmax))
    | _, _ => Except.error (PyError.valueError "zero-size array reduction")
  else Except.ok z

/-- Coordinate grids used by the vertex assembly: when no `x` is supplied
the source meshgrids two linspaces over `[0, nx/max(nx,ny)]` and
`[0, ny/max(nx,ny)]`; otherwise it re-meshgrids whatever was supplied
(the source tests only `x is None`; the claims below always supply `x`
and `y` together, modelled by a single optional pair). -/
def coordGrids (nx ny : Nat) (xy : Option (NpArray × NpArray)) : Grid × Grid :=
  match xy with
  | Option.none =>
      meshgrid_ij
        (NpArray.oneD (npLinspace 0 ((nx : ℚ) / ((Nat.max nx ny : Nat) : ℚ)) nx))
        (NpArray.oneD (npLinspace 0 ((ny : ℚ) / ((Nat.max nx ny : Nat) : ℚ)) ny))
  | some (xa, ya) => meshgrid_ij xa ya

/-- Three-way zip, the row view of `np.vstack((a, b, c)).T`. -/
def zip3 {α β γ : Type} : List α → List β → List γ → List (α × β × γ)
  | a :: as, b :: bs, c :: cs => (a, b, c) :: zip3 as bs cs
  | _, _, _ => []

/-- Python slice `idx[a:b]` on a list (clamping, empty when `b ≤ a`). -/
def pySlice (l : List Nat) (a b : Nat) : List Nat :=
  (l.drop a).take (b - a)

/-- Faces contributed by strip `j` of the source loop: two batches of
triangles built from slices of `idx = [0, ..., nn-1]` with `i1 = j*ny`,
transposed into index triples. -/
def stripFaces (nn ny i1 : Nat) : List (Nat × Nat × Nat) :=
  let idx := List.range nn
  zip3 (pySlice idx i1 (i1 + ny - 1))
       (pySlice idx (i1 + ny + 1) (i1 + 2 * ny))
       (pySlice idx (i1 + 1) (i1 + ny))
  ++
  zip3 (pySlice idx i1 (i1 + ny - 1))
       (pySlice idx (i1 + ny) (i1 + 2 * ny - 1))
       (pySlice idx (i1 + ny + 1) (i1 + 2 * ny))

/-- The full face list: `for j in range(nx - 1)` accumulating both batches
of each strip. -/
def facesOf (nx ny : Nat) : List (Nat × Nat × Nat) :=
  (List.range (nx - 1)).flatMap (fun j => stripFaces (nx * ny) ny (j * ny))

/-- Model of `hmap_to_trimesh(z, x, y, add_skirt)` of tools.py. Returns
the result (mesh or raised error) together with the final state of the
caller's grid `z`, which the source mutates in place in the skirt block.
`np.vstack` on the three flattened coordinate arrays raises `ValueError`
when their lengths differ (which is how a supplied full 2D coordinate
grid fails after being ravelled by `np.meshgrid`). -/
def hmap_to_trimesh (z : Grid) (xy : Option (NpArray × NpArray)) (add_skirt : Bool) :
    Except PyError Trimesh × Grid :=
  let nx := z.length
  let ny := (z.headD []).length
  match skirtStep z nx ny add_skirt with
  | Except.error e => (Except.error e, z)
  | Except.ok z1 =>
      let XY := coordGrids nx ny xy
      let xf := XY.1.flatten
      let yf := XY.2.flatten
      let zf := z1.flatten
      if xf.length = yf.length ∧ yf.length = zf.length then
        (Except.ok { vertices := zip3 xf yf zf, faces := facesOf nx ny }, z1)
      else
        (Except.error (PyError.valueError "vstack shape mismatch"), z1)

/-- What `show` reads from each mesh object it is handed: the mesh's own
centroid attribute (computed by the external trimesh library) and its
vertex count (never read by `show`; carried to state weight-independence). -/
structure PyMesh : Type where
  nVertices : Nat
  centroid : Vec3
deriving DecidableEq, Repr

/-- Observable outcome of a `show` call that did not raise: the interactive
branch prints the keyboard help iff requested and hands the scene to the
external blocking viewer; the combined centroid it computed is recorded
(`Option.none` models the NaN vector that `centroid /= len(mesh)` yields
on an empty mesh list, a numpy 0/0 that warns but does not raise). -/
inductive ShowOutcome : Type where
  | viewerOpened (helpPrinted : Bool) (centroid : Option Vec3)
deriving DecidableEq, Repr

/-- Componentwise sum of two 3-vectors (`centroid += np.array(m.centroid)`). -/
def addV (u v : Vec3) : Vec3 :=
  (u.1 + v.1, u.2.1 + v.2.1, u.2.2 + v.2.2)

/-- Scalar multiple of a 3-vector. -/
def smulV (c : ℚ) (v : Vec3) : Vec3 :=
  (c * v.1, c * v.2.1, c * v.2.2)

/-- The centroid accumulation of `show`: start from `np.zeros(3)`, add each
mesh's centroid, then divide by the list length. Dividing by zero is the
numpy NaN case, modelled as `Option.none`. -/
def showCentroid (meshes : List PyMesh) : Option Vec3 :=
  let s := meshes.foldl (fun acc m => addV acc m.centroid) (0, 0, 0)
  if meshes.length = 0 then Option.none
  else some (smulV (1 / (meshes.length : ℚ)) s)

/-- Model of `show(mesh, print_kcmds, offscreen, plot_image)` of tools.py
applied to a list argument. The interactive branch reaches the external
viewer; the offscreen branch begins with the statement
`os.environ['PYOPENGL_PLATFORM'] = 'egl'` whose global name `os` is
unbound in tools.py, so it raises `NameError` before anything else. -/
def showMeshes (meshes : List PyMesh) (print_kcmds offscreen plot_image : Bool) :
    Except PyError ShowOutcome :=
  let c := showCentroid meshes
  if offscreen = false then
    Except.ok (ShowOutcome.viewerOpened (print_kcmds && !offscreen) c)
  else
    Except.error (PyError.nameError "os")

/-- Unweighted mean of a list of centroids, written as the spec words it:
each component is the plain sum over the list divided by the number of
meshes, with no vertex-count weighting anywhere. -/
def meanOfCentroids (cs : List Vec3) : Vec3 :=
  ((cs.map (fun v => v.1)).sum / (cs.length : ℚ),
   (cs.map (fun v => v.2.1)).sum / (cs.length : ℚ),
   (cs.map (fun v => v.2.2)).sum / (cs.length : ℚ))

instance : Std.Antisymm (fun a b : ℚ => a ≤ b) :=
  ⟨@fun x y h h2 => le_antisymm h h2⟩

theorem ratMax?_eq_some {l : List ℚ} {a : ℚ} :
    l.max? = some a ↔ a ∈ l ∧ ∀ b ∈ l, b ≤ a :=
  List.max?_eq_some_iff (fun _ => le_refl _) (fun _ _ => max_choice _ _)
    (fun _ _ _ => max_le_iff)

theorem ratMin?_eq_some {l : List ℚ} {a : ℚ} :
    l.min? = some a ↔ a ∈ l ∧ ∀ b ∈ l, a ≤ b :=
  List.min?_eq_some_iff (fun _ => le_refl _) (fun _ _ => min_choice _ _)
    (fun _ _ _ => le_min_iff)

theorem min?_of_ne_nil {l : List ℚ} (h : l ≠ []) : ∃ a, l.min? = some a := by
  cases l with
  | nil => exact absurd rfl h
  | cons x xs => exact ⟨_, rfl⟩

theorem max?_of_ne_nil {l : List ℚ} (h : l ≠ []) : ∃ a, l.max? = some a := by
  cases l with
  | nil => exact absurd rfl h
  | cons x xs => exact ⟨_, rfl⟩

theorem length_zip3 {α β γ : Type} (as : List α) (bs : List β) (cs : List γ) :
    (zip3 as bs cs).length = Nat.min as.length (Nat.min bs.length cs.length) := by
  induction as generalizing bs cs with
  | nil => simp [zip3]
  | cons a as ih =>
      cases bs with
      | nil => simp [zip3]
      | cons b bs =>
          cases cs with
          | nil => simp [zip3]
          | cons c cs => simp [zip3, ih, Nat.succ_min_succ]

theorem zip3_map_of_range {α β γ : Type} (f : Nat → α) (g : Nat → β) (h : Nat → γ)
    (l : List Nat) :
    zip3 (l.map f) (l.map g) (l.map h) = l.map (fun k => (f k, g k, h k)) := by
  induction l with
  | nil => rfl
  | cons x xs ih => simp [zip3, ih]

theorem map_fst_zip3 {α β γ : Type} (as : List α) (bs : List β) (cs : List γ)
    (h1 : as.length = bs.length) (h2 : bs.length = cs.length) :
    (zip3 as bs cs).map (fun t => t.1) = as := by
  induction as generalizing bs cs with
  | nil => rfl
  | cons a as ih =>
      cases bs with
      | nil => simp at h1
      | cons b bs =>
          cases cs with
          | nil => simp at h2
          | cons c cs =>
              simp [zip3]
              exact ih bs cs (by simpa using h1) (by simpa using h2)

theorem map_snd_zip3 {α β γ : Type} (as : List α) (bs : List β) (cs : List γ)
    (h1 : as.length = bs.length) (h2 : bs.length = cs.length) :
    (zip3 as bs cs).map (fun t => t.2.1) = bs := by
  induction as generalizing bs cs with
  | nil => cases bs with
      | nil => rfl
      | cons b bs => simp at h1
  | cons a as ih =>
      cases bs with
      | nil => simp at h1
      | cons b bs =>
          cases cs with
          | nil => simp at h2
          | cons c cs =>
              simp [zip3]
              exact ih bs cs (by simpa using h1) (by simpa using h2)

theorem map_thd_zip3 {α β γ : Type} (as : List α) (bs : List β) (cs : List γ)
    (h1 : as.length = bs.length) (h2 : bs.length = cs.length) :
    (zip3 as bs cs).map (fun t => t.2.2) = cs := by
  induction as generalizing bs cs with
  | nil => cases bs with
      | nil => cases cs with
          | nil => rfl
          | cons c cs => simp at h2
      | cons b bs => simp at h1
  | cons a as ih =>
      cases bs with
      | nil => simp at h1
      | cons b bs =>
          cases cs with
          | nil => simp at h2
          | cons c cs =>
              simp [zip3]
              exact ih bs cs (by simpa using h1) (by simpa using h2)

theorem pySlice_range (n a b : Nat) (h : b ≤ n) :
    pySlice (List.range n) a b = (List.range (b - a)).map (fun k => a + k) := by
  apply List.ext_getElem?
  intro i
  simp only [pySlice, List.getElem?_take, List.getElem?_drop, List.getElem?_map]
  by_cases hi : i < b - a
  · rw [if_pos hi, List.getElem?_range (by omega), List.getElem?_range (by omega)]
    rfl
  · rw [if_neg hi]
    have : (List.range (b - a))[i]? = Option.none := by
      apply List.getElem?_eq_none
      simpa using by omega
    simp [this]

theorem stripFaces_eq (nx ny j : Nat) (hj : j < nx - 1) :
    stripFaces (nx * ny) ny (j * ny) =
      (List.range (ny - 1)).map (fun k => (j * ny + k, j * ny + ny + 1 + k, j * ny + 1 + k))
      ++ (List.range (ny - 1)).map (fun k => (j * ny + k, j * ny + ny + k, j * ny + ny + 1 + k)) := by
  have key : j * ny + 2 * ny ≤ nx * ny := by
    have h2 : j + 2 ≤ nx := by omega
    calc j * ny + 2 * ny = (j + 2) * ny := by ring
    _ ≤ nx * ny := Nat.mul_le_mul_right ny h2
  simp only [stripFaces]
  rw [pySlice_range _ _ _ (by omega), pySlice_range _ _ _ (by omega),
      pySlice_range _ _ _ (by omega), pySlice_range _ _ _ (by omega)]
  have e1 : j * ny + ny - 1 - j * ny = ny - 1 := by omega
  have e2 : j * ny + 2 * ny - (j * ny + ny + 1) = ny - 1 := by omega
  have e3 : j * ny + ny - (j * ny + 1) = ny - 1 := by omega
  have e4 : j * ny + 2 * ny - 1 - (j * ny + ny) = ny - 1 := by omega
  rw [e1, e2, e3, e4, zip3_map_of_range, zip3_map_of_range]

theorem length_facesOf (nx ny : Nat) : (facesOf nx ny).length = 2 * (nx - 1) * (ny - 1) := by
  unfold facesOf
  rw [List.length_flatMap]
  have hrep : (List.range (nx - 1)).map (List.length ∘ fun j => stripFaces (nx * ny) ny (j * ny))
      = List.replicate (nx - 1) (2 * (ny - 1)) := by
    apply List.eq_replicate_iff.2
    refine ⟨by simp, ?_⟩
    intro b hb
    simp only [List.mem_map, List.mem_range, Function.comp] at hb
    obtain ⟨j, hj, rfl⟩ := hb
    rw [stripFaces_eq nx ny j hj]
    simp only [List.length_append, List.length_map, List.length_range]
    omega
  rw [hrep, List.sum_replicate, smul_eq_mul]
  ring

theorem mem_facesOf (nx ny : Nat) (f : Nat × Nat × Nat) :
    f ∈ facesOf nx ny ↔ ∃ j k, j < nx - 1 ∧ k < ny - 1 ∧
      (f = (j * ny + k, j * ny + ny + 1 + k, j * ny + 1 + k) ∨
       f = (j * ny + k, j * ny + ny + k, j * ny + ny + 1 + k)) := by
  unfold facesOf
  simp only [List.mem_flatMap, List.mem_range]
  constructor
  · rintro ⟨j, hj, hf⟩
    rw [stripFaces_eq nx ny j hj] at hf
    simp only [List.mem_append, List.mem_map, List.mem_range] at hf
    rcases hf with ⟨k, hk, rfl⟩ | ⟨k, hk, rfl⟩
    · exact ⟨j, k, hj, hk, Or.inl rfl⟩
    · exact ⟨j, k, hj, hk, Or.inr rfl⟩
  · rintro ⟨j, k, hj, hk, hf | hf⟩
    · refine ⟨j, hj, ?_⟩
      rw [stripFaces_eq nx ny j hj, hf]
      simp only [List.mem_append, List.mem_map, List.mem_range]
      exact Or.inl ⟨k, hk, rfl⟩
    · refine ⟨j, hj, ?_⟩
      rw [stripFaces_eq nx ny j hj, hf]
      simp only [List.mem_append, List.mem_map, List.mem_range]
      exact Or.inr ⟨k, hk, rfl⟩

theorem stripFaces_of_ny_lt_two (nn ny i1 : Nat) (hny : ny < 2) :
    stripFaces nn ny i1 = [] := by
  simp only [stripFaces, pySlice]
  have h1 : i1 + ny - 1 - i1 = 0 := by omega
  have h2 : i1 + ny - (i1 + 1) = 0 := by omega
  rw [h1, h2]
  simp only [List.take_zero]
  cases ((List.range nn).drop (i1 + ny + 1)).take (i1 + 2 * ny - (i1 + ny + 1)) with
  | nil => rfl
  | cons x xs => rfl

theorem flatten_length_of_grid {z : Grid} {nx ny : Nat} (hz : IsGrid z nx ny) :
    z.flatten.length = nx * ny := by
  rw [List.length_flatten]
  have hrep : z.map List.length = List.replicate nx ny := by
    apply List.eq_replicate_iff.2
    refine ⟨by simp [hz.1], ?_⟩
    intro b hb
    simp only [List.mem_map] at hb
    obtain ⟨r, hr, rfl⟩ := hb
    exact hz.2 r hr
  rw [hrep, List.sum_replicate, smul_eq_mul]

theorem flatten_ne_nil_of_grid {z : Grid} {nx ny : Nat} (hz : IsGrid z nx ny)
    (hnx : 1 ≤ nx) (hny : 1 ≤ ny) : z.flatten ≠ [] := by
  have hl := flatten_length_of_grid hz
  intro h
  rw [h] at hl
  simp only [List.length_nil] at hl
  have : 1 ≤ nx * ny := Nat.one_le_iff_ne_zero.2 (by positivity)
  omega

theorem headD_length_of_grid {z : Grid} {nx ny : Nat} (hz : IsGrid z nx ny)
    (hnx : 1 ≤ nx) : (z.headD []).length = ny := by
  cases z with
  | nil => simp [IsGrid] at hz; omega
  | cons r rs => exact hz.2 r (List.mem_cons_self r rs)

theorem isGrid_setRowConst {z : Grid} {nx ny : Nat} (hz : IsGrid z nx ny) (i : Nat) (c : ℚ) :
    IsGrid (setRowConst z i c) nx ny := by
  unfold setRowConst
  by_cases hi : i < z.length
  · refine ⟨by simp [hz.1], ?_⟩
    intro r hr
    rcases List.mem_or_eq_of_mem_set hr with h | h
    · exact hz.2 r h
    · subst h
      simp only [List.length_map]
      have hmem : z.getD i [] ∈ z := by
        rw [List.getD_eq_getElem?_getD, List.getElem?_eq_getElem hi]
        exact List.getElem_mem hi
      exact hz.2 _ hmem
  · rw [List.set_eq_of_length_le (by omega)]
    exact hz

theorem isGrid_setColConst {z : Grid} {nx ny : Nat} (hz : IsGrid z nx ny) (j : Nat) (c : ℚ) :
    IsGrid (setColConst z j c) nx ny := by
  refine ⟨by simp [setColConst, hz.1], ?_⟩
  intro r hr
  simp only [setColConst, List.mem_map] at hr
  obtain ⟨r0, hr0, rfl⟩ := hr
  simp only [List.length_set]
  exact hz.2 r0 hr0

theorem isGrid_skirtBorders {z : Grid} {nx ny : Nat} (hz : IsGrid z nx ny) (z0 : ℚ) :
    IsGrid (skirtBorders z nx ny z0) nx ny := by
  unfold skirtBorders
  exact isGrid_setColConst (isGrid_setColConst
    (isGrid_setRowConst (isGrid_setRowConst hz 0 z0) (nx - 1) z0) 0 z0) (ny - 1) z0

theorem skirtStep_ok {z : Grid} {nx ny : Nat} (hz : IsGrid z nx ny)
    (hnx : 1 ≤ nx) (hny : 1 ≤ ny) (sk : Bool) :
    ∃ z1, skirtStep z nx ny sk = Except.ok z1 ∧ IsGrid z1 nx ny := by
  cases sk with
  | false => exact ⟨z, rfl, hz⟩
  | true =>
      have hne := flatten_ne_nil_of_grid hz hnx hny
      obtain ⟨zmin, hmin⟩ := min?_of_ne_nil hne
      obtain ⟨zmax, hmax⟩ := max?_of_ne_nil hne
      refine ⟨skirtBorders z nx ny (skirtFloor zmin zmax), ?_, ?_⟩
      · simp [skirtStep, hmin, hmax]
      · exact isGrid_skirtBorders hz _

theorem length_npLinspace (s t : ℚ) (n : Nat) : (npLinspace s t n).length = n := by
  unfold npLinspace
  split
  · rw [List.length_replicate]
  · rw [List.length_map, List.length_range]

theorem mem_npLinspace {s t q : ℚ} {n : Nat} (hn : 2 ≤ n) :
    q ∈ npLinspace s t n ↔ ∃ k : Nat, k < n ∧ q = s + (t - s) * (k : ℚ) / ((n : ℚ) - 1) := by
  unfold npLinspace
  rw [if_neg (by omega)]
  simp only [List.mem_map, List.mem_range]
  constructor
  · rintro ⟨k, hk, he⟩
    exact ⟨k, hk, he.symm⟩
  · rintro ⟨k, hk, he⟩
    exact ⟨k, hk, he.symm⟩

theorem min?_npLinspace_zero {a : ℚ} {n : Nat} (hn : 2 ≤ n) (ha : 0 ≤ a) :
    (npLinspace 0 a n).min? = some 0 := by
  have hden : (0 : ℚ) < (n : ℚ) - 1 := by
    have h2 : (2 : ℚ) ≤ (n : ℚ) := by exact_mod_cast hn
    linarith
  apply ratMin?_eq_some.2
  constructor
  · rw [mem_npLinspace hn]
    exact ⟨0, by omega, by push_cast; ring⟩
  · intro b hb
    rw [mem_npLinspace hn] at hb
    obtain ⟨k, hk, rfl⟩ := hb
    rw [zero_add, sub_zero]
    exact div_nonneg (mul_nonneg ha (Nat.cast_nonneg k)) hden.le

theorem max?_npLinspace_zero {a : ℚ} {n : Nat} (hn : 2 ≤ n) (ha : 0 ≤ a) :
    (npLinspace 0 a n).max? = some a := by
  have hden : (0 : ℚ) < (n : ℚ) - 1 := by
    have h2 : (2 : ℚ) ≤ (n : ℚ) := by exact_mod_cast hn
    linarith
  apply ratMax?_eq_some.2
  constructor
  · rw [mem_npLinspace hn]
    refine ⟨n - 1, by omega, ?_⟩
    rw [Nat.cast_sub (by omega), Nat.cast_one, zero_add, sub_zero]
    field_simp
  · intro b hb
    rw [mem_npLinspace hn] at hb
    obtain ⟨k, hk, rfl⟩ := hb
    rw [zero_add, sub_zero, div_le_iff₀ hden]
    have hk1 : (k : ℚ) ≤ (n : ℚ) - 1 := by
      have hc : (k : ℚ) + 1 ≤ (n : ℚ) := by exact_mod_cast hk
      linarith
    exact mul_le_mul_of_nonneg_left hk1 ha

theorem length_flatten_gridX (af bf : List ℚ) :
    ((af.map (fun v => bf.map (fun _ => v))).flatten).length = af.length * bf.length := by
  rw [List.length_flatten]
  have hrep : (af.map (fun v => bf.map (fun _ => v))).map List.length
      = List.replicate af.length bf.length := by
    apply List.eq_replicate_iff.2
    refine ⟨by simp, ?_⟩
    intro b hb
    simp only [List.map_map, List.mem_map, Function.comp] at hb
    obtain ⟨v, hv, rfl⟩ := hb
    simp
  rw [hrep, List.sum_replicate, smul_eq_mul]

theorem length_flatten_gridY (af bf : List ℚ) :
    ((af.map (fun _ => bf)).flatten).length = af.length * bf.length := by
  rw [List.length_flatten]
  have hrep : (af.map (fun _ => bf)).map List.length
      = List.replicate af.length bf.length := by
    apply List.eq_replicate_iff.2
    refine ⟨by simp, ?_⟩
    intro b hb
    simp only [List.map_map, List.mem_map, Function.comp] at hb
    obtain ⟨v, hv, rfl⟩ := hb
    simp
  rw [hrep, List.sum_replicate, smul_eq_mul]

theorem mem_flatten_gridX {af bf : List ℚ} (hbf : bf ≠ []) (q : ℚ) :
    q ∈ (af.map (fun v => bf.map (fun _ => v))).flatten ↔ q ∈ af := by
  simp only [List.mem_flatten, List.mem_map]
  constructor
  · rintro ⟨l, ⟨v, hv, rfl⟩, hq⟩
    simp only [List.mem_map] at hq
    obtain ⟨w, hw, rfl⟩ := hq
    exact hv
  · intro hq
    obtain ⟨w, hw⟩ := List.exists_mem_of_ne_nil bf hbf
    refine ⟨bf.map (fun _ => q), ⟨q, hq, rfl⟩, ?_⟩
    simp only [List.mem_map]
    exact ⟨w, hw, trivial⟩

theorem mem_flatten_gridY {af bf : List ℚ} (haf : af ≠ []) (q : ℚ) :
    q ∈ (af.map (fun _ => bf)).flatten ↔ q ∈ bf := by
  simp only [List.mem_flatten, List.mem_map]
  constructor
  · rintro ⟨l, ⟨v, hv, rfl⟩, hq⟩
    exact hq
  · intro hq
    obtain ⟨w, hw⟩ := List.exists_mem_of_ne_nil af haf
    exact ⟨bf, ⟨w, hw, rfl⟩, hq⟩

theorem getD_map_const (l : List ℚ) (c : ℚ) (j : Nat) :
    (l.map (fun _ => c)).getD j 0 = if j < l.length then c else 0 := by
  rw [List.getD_eq_getElem?_getD]
  by_cases hj : j < l.length
  · rw [if_pos hj, List.getElem?_map, List.getElem?_eq_getElem hj]
    rfl
  · rw [if_neg hj, List.getElem?_eq_none (by simp only [List.length_map]; omega)]
    rfl

theorem getD_row_of_grid {z : Grid} {nx ny : Nat} (hz : IsGrid z nx ny) {i : Nat}
    (hi : i < nx) : (z.getD i []).length = ny := by
  have hil : i < z.length := by rw [hz.1]; exact hi
  rw [List.getD_eq_getElem?_getD, List.getElem?_eq_getElem hil]
  exact hz.2 _ (List.getElem_mem hil)

theorem gridGet_setRowConst {z : Grid} {nx ny : Nat} (hz : IsGrid z nx ny) (r : Nat)
    (hr : r < nx) (c : ℚ) {i j : Nat} (hj : j < ny) :
    gridGet (setRowConst z r c) i j = if i = r then c else gridGet z i j := by
  have hrl : r < z.length := by rw [hz.1]; exact hr
  by_cases hir : i = r
  · subst hir
    unfold gridGet
    have hrow : (setRowConst z i c).getD i [] = (z.getD i []).map (fun _ => c) := by
      unfold setRowConst
      rw [List.getD_eq_getElem?_getD, List.getElem?_set, if_pos rfl, if_pos hrl]
      rfl
    rw [hrow, if_pos rfl, getD_map_const,
        if_pos (by rw [getD_row_of_grid hz hr]; exact hj)]
  · unfold gridGet
    have hrow : (setRowConst z r c).getD i [] = z.getD i [] := by
      unfold setRowConst
      rw [List.getD_eq_getElem?_getD, List.getElem?_set, if_neg (fun h => hir h.symm),
          ← List.getD_eq_getElem?_getD]
    rw [hrow, if_neg hir]

theorem gridGet_setColConst {z : Grid} {nx ny : Nat} (hz : IsGrid z nx ny) (cj : Nat)
    (c : ℚ) {i j : Nat} (hi : i < nx) (hj : j < ny) :
    gridGet (setColConst z cj c) i j = if j = cj then c else gridGet z i j := by
  have hil : i < z.length := by rw [hz.1]; exact hi
  have hrow : (setColConst z cj c).getD i [] = (z.getD i []).set cj c := by
    unfold setColConst
    rw [List.getD_eq_getElem?_getD, List.getElem?_map, List.getElem?_eq_getElem hil]
    rw [List.getD_eq_getElem?_getD, List.getElem?_eq_getElem hil]
    rfl
  unfold gridGet
  rw [hrow]
  by_cases hjc : j = cj
  · subst hjc
    rw [if_pos rfl, List.getD_eq_getElem?_getD,
        List.getElem?_set_self (by rw [getD_row_of_grid hz hi]; exact hj)]
    rfl
  · rw [if_neg hjc, List.getD_eq_getElem?_getD,
        List.getElem?_set_ne (fun h => hjc h.symm), ← List.getD_eq_getElem?_getD]

theorem gridGet_skirtBorders {z : Grid} {nx ny : Nat} (hz : IsGrid z nx ny)
    (z0 : ℚ) {i j : Nat} (hi : i < nx) (hj : j < ny) :
    gridGet (skirtBorders z nx ny z0) i j =
      if i = 0 ∨ i = nx - 1 ∨ j = 0 ∨ j = ny - 1 then z0 else gridGet z i j := by
  have h1 : IsGrid (setRowConst z 0 z0) nx ny := isGrid_setRowConst hz 0 z0
  have h2 : IsGrid (setRowConst (setRowConst z 0 z0) (nx - 1) z0) nx ny :=
    isGrid_setRowConst h1 (nx - 1) z0
  have h3 : IsGrid (setColConst (setRowConst (setRowConst z 0 z0) (nx - 1) z0) 0 z0) nx ny :=
    isGrid_setColConst h2 0 z0
  unfold skirtBorders
  rw [gridGet_setColConst h3 (ny - 1) z0 hi hj,
      gridGet_setColConst h2 0 z0 hi hj,
      gridGet_setRowConst h1 (nx - 1) (by omega) z0 hj,
      gridGet_setRowConst hz 0 (by omega) z0 hj]
  split_ifs <;> first | rfl | (exfalso; omega)

theorem hmap_run_default {z z1 : Grid} {nx ny : Nat} (hz : IsGrid z nx ny)
    (hz1 : IsGrid z1 nx ny) (hnx : 1 ≤ nx) (hny : 1 ≤ ny) (sk : Bool)
    (hsk : skirtStep z nx ny sk = Except.ok z1) :
    hmap_to_trimesh z Option.none sk =
      (Except.ok
        { vertices := zip3 ((coordGrids nx ny Option.none).1.flatten)
                           ((coordGrids nx ny Option.none).2.flatten)
                           z1.flatten,
          faces := facesOf nx ny }, z1) := by
  have h1 : z.length = nx := hz.1
  have h2 : (z.headD []).length = ny := headD_length_of_grid hz hnx
  have hxl : ((coordGrids nx ny Option.none).1.flatten).length = nx * ny := by
    simp only [coordGrids, meshgrid_ij, ravel]
    rw [length_flatten_gridX, length_npLinspace, length_npLinspace]
  have hyl : ((coordGrids nx ny Option.none).2.flatten).length = nx * ny := by
    simp only [coordGrids, meshgrid_ij, ravel]
    rw [length_flatten_gridY, length_npLinspace, length_npLinspace]
  have hzl : z1.flatten.length = nx * ny := flatten_length_of_grid hz1
  simp only [hmap_to_trimesh, h1, h2, hsk]
  rw [if_pos ⟨by rw [hxl, hyl], by rw [hyl, hzl]⟩]

/-- Concrete 1x5 grid of the spec's `InvalidShapeError` test. -/
def z1x5 : Grid := [[1, 2, 3, 4, 5]]

/-- Concrete 2x2 grid of zeros. -/
def z2x2 : Grid := [[0, 0], [0, 0]]

/-- The x meshgrid (indexing ij) of axes [0,1] and [0,1], a full 2D
coordinate grid matching a 2x2 height grid. -/
def xg2x2 : Grid := [[0, 0], [1, 1]]

/-- The y meshgrid (indexing ij) of axes [0,1] and [0,1]. -/
def yg2x2 : Grid := [[0, 1], [0, 1]]

/-- Concrete 4x4 grid of zeros used by the offscreen render property. -/
def z4x4 : Grid := [[0, 0, 0, 0], [0, 0, 0, 0], [0, 0, 0, 0], [0, 0, 0, 0]]

/-- Concrete 3x3 grid with distinct entries, minimum 1 and maximum 9. -/
def z3x3 : Grid := [[1, 2, 3], [4, 5, 6], [7, 8, 9]]

theorem facesOf_eq_nil {nx ny : Nat} (hdeg : nx < 2 ∨ ny < 2) : facesOf nx ny = [] := by
  rcases hdeg with h | h
  · have h0 : nx - 1 = 0 := by omega
    unfold facesOf
    rw [h0]
    rfl
  · apply List.eq_nil_iff_forall_not_mem.2
    intro f hf
    unfold facesOf at hf
    rw [List.mem_flatMap] at hf
    obtain ⟨j, hj, hf⟩ := hf
    rw [stripFaces_of_ny_lt_two _ _ _ h] at hf
    exact List.not_mem_nil f hf

theorem foldl_addV (l : List PyMesh) (init : Vec3) :
    l.foldl (fun acc m => addV acc m.centroid) init =
      (init.1 + (l.map (fun m => m.centroid.1)).sum,
       init.2.1 + (l.map (fun m => m.centroid.2.1)).sum,
       init.2.2 + (l.map (fun m => m.centroid.2.2)).sum) := by
  induction l generalizing init with
  | nil => simp
  | cons a l ih =>
      rw [List.foldl_cons, ih]
      simp only [List.map_cons, List.sum_cons, addV, Prod.mk.injEq]
      refine ⟨by ring, by ring, by ring⟩

theorem showCentroid_eq_mean {meshes : List PyMesh} (h : meshes ≠ []) :
    showCentroid meshes = some (meanOfCentroids (meshes.map (fun m => m.centroid))) := by
  unfold showCentroid meanOfCentroids
  rw [if_neg (by simpa using h)]
  rw [foldl_addV]
  simp only [smulV, Option.some.injEq, Prod.mk.injEq, List.map_map, List.length_map,
    Function.comp_def]
  refine ⟨by ring, by ring, by ring⟩

/-- C10: with `add_skirt = false` the mesh builder never modifies the
caller's height grid; the grid state after the call equals the input grid
sample for sample, whatever coordinate arguments are supplied. -/
theorem hmap_no_mutation_without_skirt (z : Grid) (xy : Option (NpArray × NpArray)) :
    (hmap_to_trimesh z xy false).2 = z := by
  have hsk : skirtStep z z.length (z.headD []).length false = Except.ok z := rfl
  simp only [hmap_to_trimesh, hsk]
  split <;> rfl

/-- C5 counterexample: `show` called on the empty mesh list raises nothing
at all (the code contains no emptiness check and no EmptyMeshListError);
the centroid division is a numpy 0/0 that only warns, and the call reaches
the external viewer. -/
theorem show_empty_list_no_error :
    showMeshes [] true false true = Except.ok (ShowOutcome.viewerOpened true Option.none) := rfl

/-- C5 amended: with an empty mesh list the scene composer does not fail
with EmptyMeshListError; it performs no emptiness check, computes a NaN
centroid from the zero-by-zero division and proceeds to open the viewer. -/
theorem show_empty_list_proceeds (pk pim : Bool) :
    showMeshes [] pk false pim = Except.ok (ShowOutcome.viewerOpened pk Option.none) := by
  cases pk <;> rfl

/-- C6: offscreen rendering is unreachable in tools.py: the branch begins
by touching the unbound module name `os`, so every offscreen call raises
NameError instead of returning a pixel buffer, while the 4x4 zero grid
itself converts to a mesh without error. -/
theorem show_offscreen_raises_name_error :
    (∃ m, (hmap_to_trimesh z4x4 Option.none true).1 = Except.ok m) ∧
    ∀ (meshes : List PyMesh) (pk pim : Bool),
      showMeshes meshes pk true pim = Except.error (PyError.nameError "os") := by
  constructor
  · have hz : IsGrid z4x4 4 4 := by decide
    obtain ⟨z1, hsk, hz1⟩ := skirtStep_ok hz (by omega) (by omega) true
    rw [hmap_run_default hz hz1 (by omega) (by omega) true hsk]
    exact ⟨_, rfl⟩
  · intro meshes pk pim
    rfl

/-- C8 (code bug): full 2D coordinate grids supplied alongside a matching
2x2 height grid are not used as-is: `np.meshgrid` ravels them into
4-element axes, the flattened coordinate arrays come out with 16 entries
against 4 height samples, and `np.vstack` raises ValueError. -/
theorem hmap_2d_coords_raise_value_error :
    hmap_to_trimesh z2x2 (some (NpArray.twoD xg2x2, NpArray.twoD yg2x2)) true =
      (Except.error (PyError.valueError "vstack shape mismatch"),
       [[(0 : ℚ), 0], [0, 0]]) := by
  norm_num [hmap_to_trimesh, skirtStep, skirtBorders, setRowConst, setColConst, skirtFloor,
    coordGrids, meshgrid_ij, ravel, npLinspace, z2x2, xg2x2, yg2x2,
    List.range_succ, List.min?, List.max?]

/-- C4 counterexample: the 1x5 grid of the spec's own test raises nothing
(the code has no shape validation and no InvalidShapeError); the call
returns a mesh of 5 skirted vertices and an empty face list, and the
caller's grid is overwritten with the skirt floor 4/5. -/
theorem hmap_1x5_returns_mesh :
    hmap_to_trimesh z1x5 Option.none true =
      (Except.ok
        { vertices := [((0 : ℚ), (0 : ℚ), (4 / 5 : ℚ)), (0, 1 / 4, 4 / 5), (0, 1 / 2, 4 / 5),
                       (0, 3 / 4, 4 / 5), (0, 1, 4 / 5)],
          faces := [] },
       [[(4 / 5 : ℚ), 4 / 5, 4 / 5, 4 / 5, 4 / 5]]) := by
  norm_num [hmap_to_trimesh, skirtStep, skirtBorders, setRowConst, setColConst, skirtFloor,
    coordGrids, meshgrid_ij, ravel, npLinspace, facesOf, stripFaces, pySlice, zip3, z1x5,
    List.range_succ, List.min?, List.max?]

/-- C4 amended: a nonempty grid with fewer than 2 rows or fewer than 2
columns does not make the mesh builder fail; it returns a degenerate mesh
with nx*ny vertices and an empty face list. -/
theorem hmap_degenerate_returns_empty_faces {z : Grid} {nx ny : Nat}
    (hz : IsGrid z nx ny) (hnx : 1 ≤ nx) (hny : 1 ≤ ny) (hdeg : nx < 2 ∨ ny < 2) :
    ∃ m, (hmap_to_trimesh z Option.none true).1 = Except.ok m ∧
      m.vertices.length = nx * ny ∧ m.faces = [] := by
  obtain ⟨z1, hsk, hz1⟩ := skirtStep_ok hz hnx hny true
  rw [hmap_run_default hz hz1 hnx hny true hsk]
  refine ⟨_, rfl, ?_, ?_⟩
  · have hxl : ((coordGrids nx ny Option.none).1.flatten).length = nx * ny := by
      simp only [coordGrids, meshgrid_ij, ravel]
      rw [length_flatten_gridX, length_npLinspace, length_npLinspace]
    have hyl : ((coordGrids nx ny Option.none).2.flatten).length = nx * ny := by
      simp only [coordGrids, meshgrid_ij, ravel]
      rw [length_flatten_gridY, length_npLinspace, length_npLinspace]
    have hzl : z1.flatten.length = nx * ny := flatten_length_of_grid hz1
    rw [length_zip3, hxl, hyl, hzl]
    simp
  · exact facesOf_eq_nil hdeg

/-- C4 amended witness at the concrete 1x5 grid. -/
theorem hmap_degenerate_returns_empty_faces_witness :
    ∃ m, (hmap_to_trimesh z1x5 Option.none true).1 = Except.ok m ∧
      m.vertices.length = 1 * 5 ∧ m.faces = [] :=
  hmap_degenerate_returns_empty_faces (by decide) (by decide) (by decide) (by decide)

/-- C1: on any nx x ny height grid with nx, ny >= 2 (and either skirt
setting) the mesh builder succeeds and yields exactly nx*ny vertices and
exactly 2*(nx-1)*(ny-1) faces, every face index lying below nx*ny. -/
theorem hmap_mesh_counts {z : Grid} {nx ny : Nat} (hz : IsGrid z nx ny)
    (hnx : 2 ≤ nx) (hny : 2 ≤ ny) (sk : Bool) :
    ∃ m, (hmap_to_trimesh z Option.none sk).1 = Except.ok m ∧
      m.vertices.length = nx * ny ∧
      m.faces.length = 2 * (nx - 1) * (ny - 1) ∧
      ∀ f ∈ m.faces, f.1 < nx * ny ∧ f.2.1 < nx * ny ∧ f.2.2 < nx * ny := by
  obtain ⟨z1, hsk, hz1⟩ := skirtStep_ok hz (by omega) (by omega) sk
  rw [hmap_run_default hz hz1 (by omega) (by omega) sk hsk]
  refine ⟨_, rfl, ?_, length_facesOf nx ny, ?_⟩
  · have hxl : ((coordGrids nx ny Option.none).1.flatten).length = nx * ny := by
      simp only [coordGrids, meshgrid_ij, ravel]
      rw [length_flatten_gridX, length_npLinspace, length_npLinspace]
    have hyl : ((coordGrids nx ny Option.none).2.flatten).length = nx * ny := by
      simp only [coordGrids, meshgrid_ij, ravel]
      rw [length_flatten_gridY, length_npLinspace, length_npLinspace]
    have hzl : z1.flatten.length = nx * ny := flatten_length_of_grid hz1
    rw [length_zip3, hxl, hyl, hzl]
    simp
  · intro f hf
    obtain ⟨j, k, hj, hk, hor⟩ := (mem_facesOf nx ny f).1 hf
    have key : j * ny + 2 * ny ≤ nx * ny := by
      have h2 : j + 2 ≤ nx := by omega
      calc j * ny + 2 * ny = (j + 2) * ny := by ring
      _ ≤ nx * ny := Nat.mul_le_mul_right ny h2
    rcases hor with rfl | rfl <;> refine ⟨?_, ?_, ?_⟩ <;> dsimp only <;> omega

/-- C1 witness at the concrete 2x2 zero grid. -/
theorem hmap_mesh_counts_witness :
    ∃ m, (hmap_to_trimesh z2x2 Option.none true).1 = Except.ok m ∧
      m.vertices.length = 2 * 2 ∧
      m.faces.length = 2 * (2 - 1) * (2 - 1) ∧
      ∀ f ∈ m.faces, f.1 < 2 * 2 ∧ f.2.1 < 2 * 2 ∧ f.2.2 < 2 * 2 :=
  hmap_mesh_counts (by decide) (by decide) (by decide) true

/-- C2: for every grid cell with base flattened index i = r*ny + c
(r < nx-1, c < ny-1) the face list holds the triangle (i, i+ny+1, i+1) and
the triangle (i, i+ny, i+ny+1) with exactly those index triples, and every
face of the list is one of these two triangles of some cell. -/
theorem hmap_faces_per_cell {z : Grid} {nx ny : Nat} (hz : IsGrid z nx ny)
    (hnx : 2 ≤ nx) (hny : 2 ≤ ny) (sk : Bool) :
    ∃ m, (hmap_to_trimesh z Option.none sk).1 = Except.ok m ∧
      (∀ r c, r < nx - 1 → c < ny - 1 →
        (r * ny + c, r * ny + c + ny + 1, r * ny + c + 1) ∈ m.faces ∧
        (r * ny + c, r * ny + c + ny, r * ny + c + ny + 1) ∈ m.faces) ∧
      ∀ f ∈ m.faces, ∃ r c, r < nx - 1 ∧ c < ny - 1 ∧
        (f = (r * ny + c, r * ny + c + ny + 1, r * ny + c + 1) ∨
         f = (r * ny + c, r * ny + c + ny, r * ny + c + ny + 1)) := by
  obtain ⟨z1, hsk, hz1⟩ := skirtStep_ok hz (by omega) (by omega) sk
  rw [hmap_run_default hz hz1 (by omega) (by omega) sk hsk]
  refine ⟨_, rfl, ?_, ?_⟩
  · intro r c hr hc
    constructor
    · apply (mem_facesOf nx ny _).2
      refine ⟨r, c, hr, hc, Or.inl ?_⟩
      simp only [Prod.mk.injEq]
      refine ⟨trivial, by ring, by ring⟩
    · apply (mem_facesOf nx ny _).2
      refine ⟨r, c, hr, hc, Or.inr ?_⟩
      simp only [Prod.mk.injEq]
      refine ⟨trivial, by ring, by ring⟩
  · intro f hf
    obtain ⟨j, k, hj, hk, hor⟩ := (mem_facesOf nx ny f).1 hf
    rcases hor with rfl | rfl
    · refine ⟨j, k, hj, hk, Or.inl ?_⟩
      simp only [Prod.mk.injEq]
      refine ⟨trivial, by ring, by ring⟩
    · refine ⟨j, k, hj, hk, Or.inr ?_⟩
      simp only [Prod.mk.injEq]
      refine ⟨trivial, by ring, by ring⟩

/-- C2 witness at the concrete 2x2 zero grid. -/
theorem hmap_faces_per_cell_witness :
    ∃ m, (hmap_to_trimesh z2x2 Option.none true).1 = Except.ok m ∧
      (∀ r c, r < 2 - 1 → c < 2 - 1 →
        (r * 2 + c, r * 2 + c + 2 + 1, r * 2 + c + 1) ∈ m.faces ∧
        (r * 2 + c, r * 2 + c + 2, r * 2 + c + 2 + 1) ∈ m.faces) ∧
      ∀ f ∈ m.faces, ∃ r c, r < 2 - 1 ∧ c < 2 - 1 ∧
        (f = (r * 2 + c, r * 2 + c + 2 + 1, r * 2 + c + 1) ∨
         f = (r * 2 + c, r * 2 + c + 2, r * 2 + c + 2 + 1)) :=
  hmap_faces_per_cell (by decide) (by decide) (by decide) true

/-- C3: with `add_skirt = true` the conversion overwrites exactly the four
border rows/columns of the caller's grid with the single floor value
`min - (1/20)*(max - min)` computed from the original pre-skirt data,
leaves every interior sample untouched, and computes the vertex Z
coordinates from the already-skirted grid. -/
theorem hmap_skirt_borders {z : Grid} {nx ny : Nat} (hz : IsGrid z nx ny)
    (hnx : 2 ≤ nx) (hny : 2 ≤ ny) :
    ∃ zmin zmax m z2,
      z.flatten.min? = some zmin ∧ z.flatten.max? = some zmax ∧
      hmap_to_trimesh z Option.none true = (Except.ok m, z2) ∧
      (∀ i j, i < nx → j < ny →
        gridGet z2 i j =
          if i = 0 ∨ i = nx - 1 ∨ j = 0 ∨ j = ny - 1 then skirtFloor zmin zmax
          else gridGet z i j) ∧
      m.vertices.map (fun v => v.2.2) = z2.flatten := by
  have hne := flatten_ne_nil_of_grid hz (by omega) (by omega)
  obtain ⟨zmin, hmin⟩ := min?_of_ne_nil hne
  obtain ⟨zmax, hmax⟩ := max?_of_ne_nil hne
  have hsk : skirtStep z nx ny true
      = Except.ok (skirtBorders z nx ny (skirtFloor zmin zmax)) := by
    simp [skirtStep, hmin, hmax]
  have hz1 : IsGrid (skirtBorders z nx ny (skirtFloor zmin zmax)) nx ny :=
    isGrid_skirtBorders hz _
  refine ⟨zmin, zmax, _, _, hmin, hmax,
    hmap_run_default hz hz1 (by omega) (by omega) true hsk, ?_, ?_⟩
  · intro i j hi hj
    exact gridGet_skirtBorders hz _ hi hj
  · have hxl : ((coordGrids nx ny Option.none).1.flatten).length = nx * ny := by
      simp only [coordGrids, meshgrid_ij, ravel]
      rw [length_flatten_gridX, length_npLinspace, length_npLinspace]
    have hyl : ((coordGrids nx ny Option.none).2.flatten).length = nx * ny := by
      simp only [coordGrids, meshgrid_ij, ravel]
      rw [length_flatten_gridY, length_npLinspace, length_npLinspace]
    have hzl : (skirtBorders z nx ny (skirtFloor zmin zmax)).flatten.length = nx * ny :=
      flatten_length_of_grid hz1
    exact map_thd_zip3 _ _ _ (by rw [hxl, hyl]) (by rw [hyl, hzl])

/-- C3 witness at the concrete 3x3 grid with entries 1..9. -/
theorem hmap_skirt_borders_witness :
    ∃ zmin zmax m z2,
      z3x3.flatten.min? = some zmin ∧ z3x3.flatten.max? = some zmax ∧
      hmap_to_trimesh z3x3 Option.none true = (Except.ok m, z2) ∧
      (∀ i j, i < 3 → j < 3 →
        gridGet z2 i j =
          if i = 0 ∨ i = 3 - 1 ∨ j = 0 ∨ j = 3 - 1 then skirtFloor zmin zmax
          else gridGet z3x3 i j) ∧
      m.vertices.map (fun v => v.2.2) = z2.flatten :=
  hmap_skirt_borders (by decide) (by decide) (by decide)

theorem npLinspace_ne_nil {s t : ℚ} {n : Nat} (hn : 1 ≤ n) : npLinspace s t n ≠ [] := by
  intro h
  have hl := length_npLinspace s t n
  rw [h] at hl
  simp only [List.length_nil] at hl
  omega

/-- C7: without explicit axes the synthesized X lattice spans exactly
[0, nx/max(nx,ny)] and the Y lattice spans exactly [0, ny/max(nx,ny)], so
the spanned extents have ratio exactly nx/ny (exact rationals model the
floating tolerance away). -/
theorem hmap_aspect_ratio {z : Grid} {nx ny : Nat} (hz : IsGrid z nx ny)
    (hnx : 2 ≤ nx) (hny : 2 ≤ ny) (sk : Bool) :
    ∃ m, (hmap_to_trimesh z Option.none sk).1 = Except.ok m ∧
      (m.vertices.map (fun v => v.1)).min? = some 0 ∧
      (m.vertices.map (fun v => v.1)).max? = some ((nx : ℚ) / ((Nat.max nx ny : Nat) : ℚ)) ∧
      (m.vertices.map (fun v => v.2.1)).min? = some 0 ∧
      (m.vertices.map (fun v => v.2.1)).max? = some ((ny : ℚ) / ((Nat.max nx ny : Nat) : ℚ)) ∧
      ((nx : ℚ) / ((Nat.max nx ny : Nat) : ℚ) - 0) / ((ny : ℚ) / ((Nat.max nx ny : Nat) : ℚ) - 0)
        = (nx : ℚ) / (ny : ℚ) := by
  obtain ⟨z1, hsk, hz1⟩ := skirtStep_ok hz (by omega) (by omega) sk
  rw [hmap_run_default hz hz1 (by omega) (by omega) sk hsk]
  have hM : (0 : ℚ) < ((Nat.max nx ny : Nat) : ℚ) := by
    have hp : 0 < Nat.max nx ny :=
      Nat.lt_of_lt_of_le (by omega) (Nat.le_max_left nx ny)
    exact_mod_cast hp
  have ha : (0 : ℚ) ≤ (nx : ℚ) / ((Nat.max nx ny : Nat) : ℚ) := by positivity
  have hb : (0 : ℚ) ≤ (ny : ℚ) / ((Nat.max nx ny : Nat) : ℚ) := by positivity
  have hxl : ((coordGrids nx ny Option.none).1.flatten).length = nx * ny := by
    simp only [coordGrids, meshgrid_ij, ravel]
    rw [length_flatten_gridX, length_npLinspace, length_npLinspace]
  have hyl : ((coordGrids nx ny Option.none).2.flatten).length = nx * ny := by
    simp only [coordGrids, meshgrid_ij, ravel]
    rw [length_flatten_gridY, length_npLinspace, length_npLinspace]
  have hzl : z1.flatten.length = nx * ny := flatten_length_of_grid hz1
  have hfst : (zip3 ((coordGrids nx ny Option.none).1.flatten)
      ((coordGrids nx ny Option.none).2.flatten) z1.flatten).map (fun v => v.1)
      = (coordGrids nx ny Option.none).1.flatten :=
    map_fst_zip3 _ _ _ (by rw [hxl, hyl]) (by rw [hyl, hzl])
  have hsnd : (zip3 ((coordGrids nx ny Option.none).1.flatten)
      ((coordGrids nx ny Option.none).2.flatten) z1.flatten).map (fun v => v.2.1)
      = (coordGrids nx ny Option.none).2.flatten :=
    map_snd_zip3 _ _ _ (by rw [hxl, hyl]) (by rw [hyl, hzl])
  have hafne : npLinspace 0 ((nx : ℚ) / ((Nat.max nx ny : Nat) : ℚ)) nx ≠ [] :=
    npLinspace_ne_nil (by omega)
  have hbfne : npLinspace 0 ((ny : ℚ) / ((Nat.max nx ny : Nat) : ℚ)) ny ≠ [] :=
    npLinspace_ne_nil (by omega)
  have hxminmax := ratMin?_eq_some.1 (min?_npLinspace_zero (a := (nx : ℚ) / ((Nat.max nx ny : Nat) : ℚ)) hnx ha)
  have hxmaxmax := ratMax?_eq_some.1 (max?_npLinspace_zero (a := (nx : ℚ) / ((Nat.max nx ny : Nat) : ℚ)) hnx ha)
  have hyminmax := ratMin?_eq_some.1 (min?_npLinspace_zero (a := (ny : ℚ) / ((Nat.max nx ny : Nat) : ℚ)) hny hb)
  have hymaxmax := ratMax?_eq_some.1 (max?_npLinspace_zero (a := (ny : ℚ) / ((Nat.max nx ny : Nat) : ℚ)) hny hb)
  refine ⟨_, rfl, ?_, ?_, ?_, ?_, ?_⟩
  · dsimp only
    rw [hfst]
    simp only [coordGrids, meshgrid_ij, ravel]
    apply ratMin?_eq_some.2
    refine ⟨(mem_flatten_gridX hbfne 0).2 hxminmax.1, ?_⟩
    intro q hq
    exact hxminmax.2 q ((mem_flatten_gridX hbfne q).1 hq)
  · dsimp only
    rw [hfst]
    simp only [coordGrids, meshgrid_ij, ravel]
    apply ratMax?_eq_some.2
    refine ⟨(mem_flatten_gridX hbfne _).2 hxmaxmax.1, ?_⟩
    intro q hq
    exact hxmaxmax.2 q ((mem_flatten_gridX hbfne q).1 hq)
  · dsimp only
    rw [hsnd]
    simp only [coordGrids, meshgrid_ij, ravel]
    apply ratMin?_eq_some.2
    refine ⟨(mem_flatten_gridY hafne 0).2 hyminmax.1, ?_⟩
    intro q hq
    exact hyminmax.2 q ((mem_flatten_gridY hafne q).1 hq)
  · dsimp only
    rw [hsnd]
    simp only [coordGrids, meshgrid_ij, ravel]
    apply ratMax?_eq_some.2
    refine ⟨(mem_flatten_gridY hafne _).2 hymaxmax.1, ?_⟩
    intro q hq
    exact hymaxmax.2 q ((mem_flatten_gridY hafne q).1 hq)
  · rw [sub_zero, sub_zero, div_div_div_comm, div_self hM.ne', div_one]

/-- C7 witness at the concrete 2x2 zero grid. -/
theorem hmap_aspect_ratio_witness :
    ∃ m, (hmap_to_trimesh z2x2 Option.none true).1 = Except.ok m ∧
      (m.vertices.map (fun v => v.1)).min? = some 0 ∧
      (m.vertices.map (fun v => v.1)).max? = some ((2 : ℚ) / ((Nat.max 2 2 : Nat) : ℚ)) ∧
      (m.vertices.map (fun v => v.2.1)).min? = some 0 ∧
      (m.vertices.map (fun v => v.2.1)).max? = some ((2 : ℚ) / ((Nat.max 2 2 : Nat) : ℚ)) ∧
      ((2 : ℚ) / ((Nat.max 2 2 : Nat) : ℚ) - 0) / ((2 : ℚ) / ((Nat.max 2 2 : Nat) : ℚ) - 0)
        = (2 : ℚ) / (2 : ℚ) :=
  hmap_aspect_ratio (by decide) (by decide) (by decide) true

/-- C9: the scene composer combines mesh centroids as their plain
unweighted average (the per-mesh vertex counts never enter), for every
nonempty mesh list in the interactive path. -/
theorem show_centroid_unweighted (meshes : List PyMesh) (h : meshes ≠ []) (pk pim : Bool) :
    showMeshes meshes pk false pim =
      Except.ok (ShowOutcome.viewerOpened pk
        (some (meanOfCentroids (meshes.map (fun m => m.centroid))))) := by
  simp only [showMeshes]
  rw [showCentroid_eq_mean h]
  have hb : (pk && !false) = pk := by cases pk <;> rfl
  rw [hb, if_pos trivial]

/-- C9 witness: two meshes of very different vertex counts centered at
(0,0,0) and (10,0,0) combine to the centroid (5,0,0). -/
theorem show_centroid_unweighted_witness :
    showMeshes [⟨8, ((0 : ℚ), (0 : ℚ), (0 : ℚ))⟩, ⟨2000, ((10 : ℚ), (0 : ℚ), (0 : ℚ))⟩]
        true false true =
      Except.ok (ShowOutcome.viewerOpened true (some ((5 : ℚ), (0 : ℚ), (0 : ℚ)))) := by
  rw [show_centroid_unweighted _ (List.cons_ne_nil _ _) true true]
  norm_num [meanOfCentroids]
